import Mathlib

/-!
Verification of the maskerad_stack_allocator core against its specification.

The development shallowly embeds the allocation engine of the repository:
the alignment utilities of src/utils.rs, the MemoryChunk of src/memory_chunk.rs,
the StackAllocator of src/stacks/stack_allocator.rs and the two composites
(src/stacks/double_buffered_allocator.rs, src/stacks/double_ended_allocator.rs).
Machine integers are modelled as Nat; the target is 64-bit, so a usize and a raw
pointer take 8 bytes and the usize value space is 2 ^ 64.  Byte buffers are
modelled by the list of word writes the code performs (most recent first),
since the code only ever reads back the packed type-description words it wrote.
Drop-glue invocations are modelled as (drop_glue identifier, object offset)
events emitted by the destructor walk.
-/

namespace Maskerad

/-- TypeDescription from src/utils.rs: the drop function of a droppable type
(modelled by a numeric identifier), its size and its alignment. -/
structure TypeDescription where
  drop_glue : Nat
  size : Nat
  alignment : Nat
deriving Repr, DecidableEq

/-- Number of values of a usize on the 64-bit target: 2 ^ 64. -/
def usizeSize : Nat := 2 ^ 64

/-- size_of::<*const TypeDescription>() on the 64-bit target: 8 bytes. -/
def tdPtrSize : Nat := 8

/-- align_of::<*const TypeDescription>() on the 64-bit target: 8 bytes. -/
def tdPtrAlign : Nat := 8

/-- round_up from src/utils.rs (lines 131-143):
misalignment = base & (align - 1); adjustment = align - misalignment;
result = base + adjustment.  Note the code does not reduce the adjustment
modulo align. -/
def round_up (base align : Nat) : Nat :=
  let misalignment := base &&& (align - 1)
  let adjustment := align - misalignment
  base + adjustment

/-- bitpack_type_description_ptr from src/utils.rs (lines 62-66):
p as usize | (is_done as usize). -/
def bitpack_type_description_ptr (p : Nat) (is_done : Bool) : Nat :=
  p ||| (if is_done then 1 else 0)

/-- Value of the usize expression !1 (bitwise complement of 1) on the 64-bit
target: every bit set except bit 0. -/
def usizeNotOne : Nat := 2 ^ 64 - 2

/-- un_bitpack_type_description_ptr from src/utils.rs (lines 78-81):
((p & !1) as *const TypeDescription, p & 1 == 1). -/
def un_bitpack_type_description_ptr (p : Nat) : Nat × Bool :=
  (p &&& usizeNotOne, p &&& 1 == 1)

/-! Helper lemmas about round_up. -/

theorem le_round_up (base align : Nat) : base ≤ round_up base align := by
  simp only [round_up]
  omega

theorem lt_round_up (base : Nat) {align : Nat} (h : 1 ≤ align) :
    base < round_up base align := by
  have hle : base &&& (align - 1) ≤ align - 1 := Nat.and_le_right
  simp only [round_up]
  omega

theorem round_up_pow_eq (base k : Nat) :
    round_up base (2 ^ k) = base + (2 ^ k - base % 2 ^ k) := by
  have h : base &&& (2 ^ k - 1) = base % 2 ^ k :=
    Nat.and_pow_two_sub_one_eq_mod base k
  simp only [round_up, h]

theorem round_up_pow_mod (base k : Nat) : round_up base (2 ^ k) % 2 ^ k = 0 := by
  rw [round_up_pow_eq]
  have h1 : base % 2 ^ k < 2 ^ k := Nat.mod_lt _ (Nat.two_pow_pos k)
  have h3 := Nat.mod_add_div base (2 ^ k)
  have h4 : base + (2 ^ k - base % 2 ^ k) = 2 ^ k * (base / 2 ^ k + 1) := by
    rw [Nat.mul_add, Nat.mul_one]
    omega
  rw [h4]
  exact Nat.mul_mod_right _ _

theorem round_up_pow_least (base k x : Nat) (hx : base < x) (hmod : x % 2 ^ k = 0) :
    round_up base (2 ^ k) ≤ x := by
  rw [round_up_pow_eq]
  have hpos : 0 < 2 ^ k := Nat.two_pow_pos k
  have h1 : base % 2 ^ k < 2 ^ k := Nat.mod_lt _ hpos
  have h3 := Nat.mod_add_div base (2 ^ k)
  have h5 := Nat.mod_add_div x (2 ^ k)
  rw [hmod, Nat.zero_add] at h5
  by_contra hcon
  push_neg at hcon
  have hq : base / 2 ^ k < x / 2 ^ k := by
    by_contra hq'
    push_neg at hq'
    have : 2 ^ k * (x / 2 ^ k) ≤ 2 ^ k * (base / 2 ^ k) :=
      Nat.mul_le_mul_left _ hq'
    omega
  have : 2 ^ k * (base / 2 ^ k + 1) ≤ 2 ^ k * (x / 2 ^ k) :=
    Nat.mul_le_mul_left _ hq
  rw [Nat.mul_add, Nat.mul_one] at this
  omega

/-! Helper lemmas about the bit packing. -/

theorem testBit_usizeNotOne (i : Nat) :
    Nat.testBit usizeNotOne i = (decide (i < 64) && decide (i ≠ 0)) := by
  have h : usizeNotOne = 2 ^ 64 - (1 + 1) := rfl
  rw [h, Nat.testBit_two_pow_sub_succ (by norm_num)]
  cases i with
  | zero => simp
  | succ j =>
    simp [Nat.testBit_add_one]

theorem bitpack_and_mask {p : Nat} (b : Bool) (heven : p % 2 = 0)
    (hlt : p < usizeSize) :
    bitpack_type_description_ptr p b &&& usizeNotOne = p := by
  apply Nat.eq_of_testBit_eq
  intro i
  rw [bitpack_type_description_ptr, Nat.testBit_and, Nat.testBit_or,
    testBit_usizeNotOne]
  cases i with
  | zero =>
    simp [Nat.testBit_zero]
    omega
  | succ j =>
    by_cases hj : j + 1 < 64
    · have hb : Nat.testBit (if b then 1 else 0) (j + 1) = false := by
        cases b <;> simp [Nat.testBit_add_one]
      simp [hj, hb]
    · have hp : Nat.testBit p (j + 1) = false := by
        apply Nat.testBit_lt_two_pow
        calc p < 2 ^ 64 := hlt
          _ ≤ 2 ^ (j + 1) := Nat.pow_le_pow_right (by norm_num) (by omega)
      simp [hj, hp]

theorem bitpack_and_one {p : Nat} (b : Bool) (heven : p % 2 = 0) :
    (bitpack_type_description_ptr p b &&& 1 == 1) = b := by
  rw [bitpack_type_description_ptr, Nat.and_one_is_mod]
  cases b with
  | false =>
    simp only [if_neg Bool.false_ne_true, Nat.or_zero]
    simp [heven]
  | true =>
    have h : (p ||| 1) % 2 = 1 := by
      rw [Nat.or_mod_two_eq_one]
      right
      norm_num
    simp [h]

theorem un_bitpack_bitpack (p : Nat) (b : Bool) (heven : p % 2 = 0)
    (hlt : p < usizeSize) :
    un_bitpack_type_description_ptr (bitpack_type_description_ptr p b) = (p, b) := by
  rw [un_bitpack_type_description_ptr, bitpack_and_mask b heven hlt,
    bitpack_and_one b heven]

/-! Embedding of src/allocation_error.rs, src/memory_chunk.rs and
src/stacks/stack_allocator.rs. -/

/-- AllocationError from src/allocation_error.rs. -/
inductive AllocationError where
  | OutOfMemoryError : String → AllocationError
  | OutOfPoolError : String → AllocationError
deriving Repr, DecidableEq

/-- MemoryChunk from src/memory_chunk.rs: a RawVec of bytes with a fill cursor.
base is the buffer address the host returned for RawVec::with_capacity (the
code places no constraint on it); writes is the list of word stores performed
into the buffer, most recent first. -/
structure MemoryChunk where
  base : Nat
  capacity : Nat
  fill : Nat
  writes : List (Nat × Nat)
deriving Repr, DecidableEq

/-- MemoryChunk::new(size): fresh buffer, fill = 0. -/
def MemoryChunk.new (base size : Nat) : MemoryChunk :=
  { base := base, capacity := size, fill := 0, writes := [] }

/-- MemoryChunk::set_fill. -/
def MemoryChunk.set_fill (c : MemoryChunk) (first_unused_byte : Nat) : MemoryChunk :=
  { c with fill := first_unused_byte }

/-- MemoryChunk::as_ptr: the start address of the buffer. -/
def MemoryChunk.as_ptr (c : MemoryChunk) : Nat := c.base

/-- Reading the usize stored at a byte offset of the chunk (the dereference
*type_description_data performed by the destructor walk). -/
def readWord (c : MemoryChunk) (off : Nat) : Nat :=
  match c.writes.find? (fun w => w.1 == off) with
  | some w => w.2
  | none => 0

/-- Storing a usize at a byte offset of the chunk (the raw-pointer stores
performed during allocation). -/
def writeWord (c : MemoryChunk) (off word : Nat) : MemoryChunk :=
  { c with writes := (off, word) :: c.writes }

/-- MemoryChunk::destroy_to_marker's while loop from src/memory_chunk.rs
(lines 77-124), returning the list of drop-glue invocations it performs, in
order, each as (drop_glue identifier, object start offset).  tds maps a
type-description pointer value to the TypeDescription record it points to. -/
def destroy_loop (tds : Nat → TypeDescription) (c : MemoryChunk) (index : Nat) :
    List (Nat × Nat) :=
  if h : index < c.fill then
    (if (un_bitpack_type_description_ptr (readWord c index)).2 then
      [((tds (un_bitpack_type_description_ptr (readWord c index)).1).drop_glue,
        round_up (index + tdPtrSize)
          (tds (un_bitpack_type_description_ptr (readWord c index)).1).alignment)]
    else []) ++
      destroy_loop tds c
        (round_up
          (round_up (index + tdPtrSize)
              (tds (un_bitpack_type_description_ptr (readWord c index)).1).alignment +
            (tds (un_bitpack_type_description_ptr (readWord c index)).1).size)
          tdPtrAlign)
  else []
termination_by c.fill - index
decreasing_by
  have h1 : index + tdPtrSize ≤
      round_up (index + tdPtrSize)
        (tds (un_bitpack_type_description_ptr (readWord c index)).1).alignment :=
    le_round_up _ _
  have h2 : round_up (index + tdPtrSize)
        (tds (un_bitpack_type_description_ptr (readWord c index)).1).alignment +
        (tds (un_bitpack_type_description_ptr (readWord c index)).1).size <
      round_up
        (round_up (index + tdPtrSize)
            (tds (un_bitpack_type_description_ptr (readWord c index)).1).alignment +
          (tds (un_bitpack_type_description_ptr (readWord c index)).1).size)
        tdPtrAlign :=
    lt_round_up _ (by norm_num [tdPtrAlign])
  omega

/-- MemoryChunk::destroy_to_marker, as the event list it emits. -/
def destroy_to_marker (tds : Nat → TypeDescription) (c : MemoryChunk)
    (marker : Nat) : List (Nat × Nat) :=
  destroy_loop tds c marker

/-- MemoryChunk::destroy: destroy_to_marker(0). -/
def destroy (tds : Nat → TypeDescription) (c : MemoryChunk) : List (Nat × Nat) :=
  destroy_to_marker tds c 0

/-- StackAllocator from src/stacks/stack_allocator.rs: a drop chunk and a copy
chunk (the RefCell interior mutability becomes explicit state passing). -/
structure StackAllocator where
  storage : MemoryChunk
  storage_copy : MemoryChunk
deriving Repr, DecidableEq

/-- StackAllocator::with_capacity; base and base_copy are the buffer addresses
the host hands to the two RawVec allocations. -/
def StackAllocator.with_capacity (base base_copy capacity capacity_copy : Nat) :
    StackAllocator :=
  { storage := MemoryChunk.new base capacity,
    storage_copy := MemoryChunk.new base_copy capacity_copy }

/-- alloc_non_copy_inner from src/stacks/stack_allocator.rs (lines 579-647):
computes the record offsets, fails when end >= capacity, otherwise advances
fill to end and returns the (type description, object) offsets. -/
def alloc_non_copy_inner (A : StackAllocator) (n_bytes align : Nat) :
    StackAllocator × Except AllocationError (Nat × Nat) :=
  let fill := A.storage.fill
  let type_description_start := fill
  let after_type_description := fill + tdPtrSize
  let start := round_up after_type_description align
  let end_index := round_up (start + n_bytes) tdPtrAlign
  if A.storage.capacity ≤ end_index then
    (A, Except.error (AllocationError.OutOfMemoryError
      "The stack allocator is out of memory !"))
  else
    ({ A with storage := A.storage.set_fill end_index },
      Except.ok (type_description_start, start))

/-- alloc_copy_inner from src/stacks/stack_allocator.rs (lines 710-747). -/
def alloc_copy_inner (A : StackAllocator) (n_bytes align : Nat) :
    StackAllocator × Except AllocationError Nat :=
  let fill := A.storage_copy.fill
  let start := round_up fill align
  let end_index := start + n_bytes
  if A.storage_copy.capacity ≤ end_index then
    (A, Except.error (AllocationError.OutOfMemoryError
      "The copy stack allocator is out of memory !"))
  else
    ({ A with storage_copy := A.storage_copy.set_fill end_index },
      Except.ok start)

/-- alloc_non_copy from src/stacks/stack_allocator.rs (lines 449-487): the type
T is represented by its type-description pointer p (size and alignment are read
off tds p, matching size_of/align_of of T); op models the init closure, whose
produced value is stored at the object offset.  Returns the object offset. -/
def alloc_non_copy (tds : Nat → TypeDescription) (p : Nat) (op : Unit → Nat)
    (A : StackAllocator) : StackAllocator × Except AllocationError Nat :=
  match alloc_non_copy_inner A (tds p).size (tds p).alignment with
  | (A1, Except.error e) => (A1, Except.error e)
  | (A1, Except.ok (type_description_ptr, ptr)) =>
    let word_false := bitpack_type_description_ptr p false
    let word_true := bitpack_type_description_ptr p true
    let A2 := { A1 with storage := writeWord A1.storage type_description_ptr word_false }
    let A3 := { A2 with storage := writeWord A2.storage ptr (op ()) }
    let A4 := { A3 with storage := writeWord A3.storage type_description_ptr word_true }
    (A4, Except.ok ptr)

/-- alloc_non_copy_mut from src/stacks/stack_allocator.rs (lines 224-262); its
body is identical to alloc_non_copy apart from the mutability of the returned
reference. -/
def alloc_non_copy_mut (tds : Nat → TypeDescription) (p : Nat) (op : Unit → Nat)
    (A : StackAllocator) : StackAllocator × Except AllocationError Nat :=
  match alloc_non_copy_inner A (tds p).size (tds p).alignment with
  | (A1, Except.error e) => (A1, Except.error e)
  | (A1, Except.ok (type_description_ptr, ptr)) =>
    let word_false := bitpack_type_description_ptr p false
    let word_true := bitpack_type_description_ptr p true
    let A2 := { A1 with storage := writeWord A1.storage type_description_ptr word_false }
    let A3 := { A2 with storage := writeWord A2.storage ptr (op ()) }
    let A4 := { A3 with storage := writeWord A3.storage type_description_ptr word_true }
    (A4, Except.ok ptr)

/-- alloc_copy from src/stacks/stack_allocator.rs (lines 529-551). -/
def alloc_copy (n_bytes align : Nat) (op : Unit → Nat) (A : StackAllocator) :
    StackAllocator × Except AllocationError Nat :=
  match alloc_copy_inner A n_bytes align with
  | (A1, Except.error e) => (A1, Except.error e)
  | (A1, Except.ok ptr) =>
    ({ A1 with storage_copy := writeWord A1.storage_copy ptr (op ()) },
      Except.ok ptr)

/-- alloc_copy_mut from src/stacks/stack_allocator.rs (lines 305-327); body
identical to alloc_copy. -/
def alloc_copy_mut (n_bytes align : Nat) (op : Unit → Nat) (A : StackAllocator) :
    StackAllocator × Except AllocationError Nat :=
  match alloc_copy_inner A n_bytes align with
  | (A1, Except.error e) => (A1, Except.error e)
  | (A1, Except.ok ptr) =>
    ({ A1 with storage_copy := writeWord A1.storage_copy ptr (op ()) },
      Except.ok ptr)

/-- State of alloc_non_copy at the moment the init closure op() aborts
abnormally: alloc_non_copy_inner has run (in this code that advances fill to
end) and the packed word with initialized=false has been written; the object
write and the initialized=true overwrite never happen. -/
def alloc_non_copy_panicked (tds : Nat → TypeDescription) (p : Nat)
    (A : StackAllocator) : StackAllocator × Except AllocationError Unit :=
  match alloc_non_copy_inner A (tds p).size (tds p).alignment with
  | (A1, Except.error e) => (A1, Except.error e)
  | (A1, Except.ok (type_description_ptr, _ptr)) =>
    let word_false := bitpack_type_description_ptr p false
    ({ A1 with storage := writeWord A1.storage type_description_ptr word_false },
      Except.ok ())

/-- StackAllocator::marker: the fill of the drop chunk. -/
def StackAllocator.marker (A : StackAllocator) : Nat := A.storage.fill

/-- StackAllocator::marker_copy: the fill of the copy chunk. -/
def StackAllocator.marker_copy (A : StackAllocator) : Nat := A.storage_copy.fill

/-- StackAllocator::reset (lines 873-881): full destructor walk of the drop
chunk, then fill := 0.  Returns the new state and the drop events. -/
def StackAllocator.reset (tds : Nat → TypeDescription) (A : StackAllocator) :
    StackAllocator × List (Nat × Nat) :=
  ({ A with storage := A.storage.set_fill 0 }, destroy tds A.storage)

/-- StackAllocator::reset_copy (lines 911-915): copy-chunk fill := 0, no
destructors. -/
def StackAllocator.reset_copy (A : StackAllocator) : StackAllocator :=
  { A with storage_copy := A.storage_copy.set_fill 0 }

/-- StackAllocator::reset_to_marker (lines 958-966): partial destructor walk
from the marker, then fill := marker. -/
def StackAllocator.reset_to_marker (tds : Nat → TypeDescription)
    (A : StackAllocator) (marker : Nat) : StackAllocator × List (Nat × Nat) :=
  ({ A with storage := A.storage.set_fill marker },
    destroy_to_marker tds A.storage marker)

/-- StackAllocator::reset_to_marker_copy (lines 1007-1011). -/
def StackAllocator.reset_to_marker_copy (A : StackAllocator) (marker : Nat) :
    StackAllocator :=
  { A with storage_copy := A.storage_copy.set_fill marker }

/-! Embedding of the composites. -/

/-- DoubleBufferedAllocator from src/stacks/double_buffered_allocator.rs: a
pair of StackAllocators and the boolean selector current. -/
structure DoubleBufferedAllocator where
  buffers : StackAllocator × StackAllocator
  current : Bool
deriving Repr, DecidableEq

/-- DoubleBufferedAllocator::with_capacity (current starts at false). -/
def DoubleBufferedAllocator.with_capacity (b0 b0c b1 b1c capacity capacity_copy : Nat) :
    DoubleBufferedAllocator :=
  { buffers := (StackAllocator.with_capacity b0 b0c capacity capacity_copy,
      StackAllocator.with_capacity b1 b1c capacity capacity_copy),
    current := false }

/-- DoubleBufferedAllocator::swap_buffers (lines 192-194): current := not current. -/
def DoubleBufferedAllocator.swap_buffers (A : DoubleBufferedAllocator) :
    DoubleBufferedAllocator :=
  { A with current := !A.current }

/-- DoubleEndedStackAllocator from src/stacks/double_ended_allocator.rs: a
resident StackAllocator and a temp StackAllocator. -/
structure DoubleEndedStackAllocator where
  stack_resident : StackAllocator
  stack_temp : StackAllocator
deriving Repr, DecidableEq

/-- DoubleEndedStackAllocator::marker_resident (lines 213-215). -/
def DoubleEndedStackAllocator.marker_resident (A : DoubleEndedStackAllocator) : Nat :=
  A.stack_resident.marker

/-- DoubleEndedStackAllocator::marker_temp. -/
def DoubleEndedStackAllocator.marker_temp (A : DoubleEndedStackAllocator) : Nat :=
  A.stack_temp.marker

/-- DoubleEndedStackAllocator::reset_resident (lines 260-262): delegates to the
resident stack's reset. -/
def DoubleEndedStackAllocator.reset_resident (tds : Nat → TypeDescription)
    (A : DoubleEndedStackAllocator) : DoubleEndedStackAllocator × List (Nat × Nat) :=
  ({ A with stack_resident := (A.stack_resident.reset tds).1 },
    (A.stack_resident.reset tds).2)

/-- DoubleEndedStackAllocator::reset_temp (lines 318-320): delegates to the
temp stack's reset. -/
def DoubleEndedStackAllocator.reset_temp (tds : Nat → TypeDescription)
    (A : DoubleEndedStackAllocator) : DoubleEndedStackAllocator × List (Nat × Nat) :=
  ({ A with stack_temp := (A.stack_temp.reset tds).1 },
    (A.stack_temp.reset tds).2)

/-- C1, counterexample: the spec says that when base is already a multiple of
align, round_up(base, align) == base.  The code returns base + align instead:
round_up(8, 4) = 12, not 8. -/
theorem round_up_aligned_base_counterexample :
    8 % 4 = 0 ∧ round_up 8 4 = 12 ∧ round_up 8 4 ≠ 8 := by
  refine ⟨by norm_num, ?_, ?_⟩ <;> decide

/-- C1 (amended): for every base and power-of-two align, round_up(base, align)
returns the smallest integer x STRICTLY greater than base with x mod align == 0;
in particular, when base is already a multiple of align, round_up(base, align)
is base + align rather than base. -/
theorem round_up_next_strict_multiple (base align k : Nat)
    (halign : align = 2 ^ k) :
    round_up base align % align = 0 ∧
    base < round_up base align ∧
    (∀ x, base < x → x % align = 0 → round_up base align ≤ x) ∧
    (base % align = 0 → round_up base align = base + align) := by
  subst halign
  refine ⟨round_up_pow_mod base k, lt_round_up base (Nat.two_pow_pos k),
    fun x hx hmod => round_up_pow_least base k x hx hmod, fun hb => ?_⟩
  rw [round_up_pow_eq, hb, Nat.sub_zero]

/-- C1 witness: the amended theorem applied at base = 8, align = 4 = 2 ^ 2. -/
theorem round_up_next_strict_multiple_witness :
    4 = 2 ^ 2 ∧
    (round_up 8 4 % 4 = 0 ∧ 8 < round_up 8 4 ∧ round_up 8 4 ≤ 12 ∧
      round_up 8 4 = 8 + 4) := by
  refine ⟨by norm_num, ?_⟩
  have h := round_up_next_strict_multiple 8 4 2 (by norm_num)
  exact ⟨h.1, h.2.1, h.2.2.1 12 (by norm_num) (by norm_num), h.2.2.2 (by norm_num)⟩

/-- C7: for every type-description pointer p with low bit zero and below the
usize bound, and every boolean b, unpacking pack(p, b) recovers exactly (p, b),
and re-packing the unpacked components yields pack(p, b) again. -/
theorem pack_unpack_roundtrip (p : Nat) (b : Bool) (hp : p % 2 = 0)
    (hlt : p < usizeSize) :
    un_bitpack_type_description_ptr (bitpack_type_description_ptr p b) = (p, b) ∧
    bitpack_type_description_ptr
        (un_bitpack_type_description_ptr (bitpack_type_description_ptr p b)).1
        (un_bitpack_type_description_ptr (bitpack_type_description_ptr p b)).2 =
      bitpack_type_description_ptr p b := by
  have h := un_bitpack_bitpack p b hp hlt
  refine ⟨h, ?_⟩
  rw [h]

/-- C7 witness: the round-trip theorem applied at p = 32, b = true. -/
theorem pack_unpack_roundtrip_witness :
    32 % 2 = 0 ∧ 32 < usizeSize ∧
    (un_bitpack_type_description_ptr (bitpack_type_description_ptr 32 true) =
        (32, true) ∧
      bitpack_type_description_ptr
          (un_bitpack_type_description_ptr
            (bitpack_type_description_ptr 32 true)).1
          (un_bitpack_type_description_ptr
            (bitpack_type_description_ptr 32 true)).2 =
        bitpack_type_description_ptr 32 true) := by
  refine ⟨by norm_num, by norm_num [usizeSize], ?_⟩
  exact pack_unpack_roundtrip 32 true (by norm_num) (by norm_num [usizeSize])

theorem except_isOk_error {e : AllocationError} {a : Type} :
    (Except.error e : Except AllocationError a).isOk = false := rfl

theorem except_isOk_ok {x : Nat} :
    (Except.ok x : Except AllocationError Nat).isOk = true := rfl

/-! Characterization lemmas: each allocation function written as a single
conditional on the capacity check. -/

theorem alloc_non_copy_def (tds : Nat → TypeDescription) (p : Nat)
    (op : Unit → Nat) (A : StackAllocator) :
    alloc_non_copy tds p op A =
      if A.storage.capacity ≤
          round_up
            (round_up (A.storage.fill + tdPtrSize) (tds p).alignment +
              (tds p).size) tdPtrAlign then
        (A, Except.error (AllocationError.OutOfMemoryError
          "The stack allocator is out of memory !"))
      else
        ({ A with storage := (writeWord
            (writeWord
              (writeWord
                (A.storage.set_fill
                  (round_up
                    (round_up (A.storage.fill + tdPtrSize) (tds p).alignment +
                      (tds p).size) tdPtrAlign))
                A.storage.fill (bitpack_type_description_ptr p false))
              (round_up (A.storage.fill + tdPtrSize) (tds p).alignment)
              (op ()))
            A.storage.fill (bitpack_type_description_ptr p true)) },
          Except.ok (round_up (A.storage.fill + tdPtrSize) (tds p).alignment)) := by
  by_cases hc : A.storage.capacity ≤
      round_up
        (round_up (A.storage.fill + tdPtrSize) (tds p).alignment +
          (tds p).size) tdPtrAlign
  · simp [alloc_non_copy, alloc_non_copy_inner, hc]
  · simp [alloc_non_copy, alloc_non_copy_inner, hc, MemoryChunk.set_fill,
      writeWord]

theorem alloc_non_copy_mut_eq (tds : Nat → TypeDescription) (p : Nat)
    (op : Unit → Nat) (A : StackAllocator) :
    alloc_non_copy_mut tds p op A = alloc_non_copy tds p op A := rfl

theorem alloc_copy_def (n_bytes align : Nat) (op : Unit → Nat)
    (A : StackAllocator) :
    alloc_copy n_bytes align op A =
      if A.storage_copy.capacity ≤
          round_up A.storage_copy.fill align + n_bytes then
        (A, Except.error (AllocationError.OutOfMemoryError
          "The copy stack allocator is out of memory !"))
      else
        ({ A with storage_copy := (writeWord
            (A.storage_copy.set_fill
              (round_up A.storage_copy.fill align + n_bytes))
            (round_up A.storage_copy.fill align) (op ())) },
          Except.ok (round_up A.storage_copy.fill align)) := by
  by_cases hc : A.storage_copy.capacity ≤
      round_up A.storage_copy.fill align + n_bytes
  · simp [alloc_copy, alloc_copy_inner, hc]
  · simp [alloc_copy, alloc_copy_inner, hc, MemoryChunk.set_fill, writeWord]

theorem alloc_copy_mut_eq (n_bytes align : Nat) (op : Unit → Nat)
    (A : StackAllocator) :
    alloc_copy_mut n_bytes align op A = alloc_copy n_bytes align op A := rfl

theorem alloc_non_copy_panicked_def (tds : Nat → TypeDescription) (p : Nat)
    (A : StackAllocator) :
    alloc_non_copy_panicked tds p A =
      if A.storage.capacity ≤
          round_up
            (round_up (A.storage.fill + tdPtrSize) (tds p).alignment +
              (tds p).size) tdPtrAlign then
        (A, Except.error (AllocationError.OutOfMemoryError
          "The stack allocator is out of memory !"))
      else
        ({ A with storage := (writeWord
            (A.storage.set_fill
              (round_up
                (round_up (A.storage.fill + tdPtrSize) (tds p).alignment +
                  (tds p).size) tdPtrAlign))
            A.storage.fill (bitpack_type_description_ptr p false)) },
          Except.ok ()) := by
  by_cases hc : A.storage.capacity ≤
      round_up
        (round_up (A.storage.fill + tdPtrSize) (tds p).alignment +
          (tds p).size) tdPtrAlign
  · simp [alloc_non_copy_panicked, alloc_non_copy_inner, hc]
  · simp [alloc_non_copy_panicked, alloc_non_copy_inner, hc,
      MemoryChunk.set_fill, writeWord]

/-- C2: a checked allocation (alloc or alloc_mut, drop chunk or copy chunk)
fails with OutOfMemory iff the computed end offset is at least the chunk's
capacity, and succeeds iff end < capacity.  The mut variants behave exactly
like the immutable ones. -/
theorem checked_alloc_out_of_memory_iff (tds : Nat → TypeDescription)
    (p n_bytes align : Nat) (op : Unit → Nat) (A : StackAllocator) :
    alloc_non_copy_mut tds p op A = alloc_non_copy tds p op A ∧
    alloc_copy_mut n_bytes align op A = alloc_copy n_bytes align op A ∧
    ((alloc_non_copy tds p op A).2.isOk = false ↔
      A.storage.capacity ≤
        round_up
          (round_up (A.storage.fill + tdPtrSize) (tds p).alignment +
            (tds p).size) tdPtrAlign) ∧
    ((alloc_non_copy tds p op A).2.isOk = true ↔
      round_up
          (round_up (A.storage.fill + tdPtrSize) (tds p).alignment +
            (tds p).size) tdPtrAlign < A.storage.capacity) ∧
    ((alloc_copy n_bytes align op A).2.isOk = false ↔
      A.storage_copy.capacity ≤ round_up A.storage_copy.fill align + n_bytes) ∧
    ((alloc_copy n_bytes align op A).2.isOk = true ↔
      round_up A.storage_copy.fill align + n_bytes < A.storage_copy.capacity) := by
  refine ⟨alloc_non_copy_mut_eq tds p op A, alloc_copy_mut_eq n_bytes align op A,
    ?_, ?_, ?_, ?_⟩
  · rw [alloc_non_copy_def]
    by_cases hc : A.storage.capacity ≤
        round_up
          (round_up (A.storage.fill + tdPtrSize) (tds p).alignment +
            (tds p).size) tdPtrAlign
    · simp [hc, except_isOk_error]
    · simp [hc, except_isOk_ok]
  · rw [alloc_non_copy_def]
    by_cases hc : A.storage.capacity ≤
        round_up
          (round_up (A.storage.fill + tdPtrSize) (tds p).alignment +
            (tds p).size) tdPtrAlign
    · rw [if_pos hc]
      simp [except_isOk_error]
      omega
    · rw [if_neg hc]
      simp [except_isOk_ok]
      omega
  · rw [alloc_copy_def]
    by_cases hc : A.storage_copy.capacity ≤
        round_up A.storage_copy.fill align + n_bytes
    · simp [hc, except_isOk_error]
    · simp [hc, except_isOk_ok]
  · rw [alloc_copy_def]
    by_cases hc : A.storage_copy.capacity ≤
        round_up A.storage_copy.fill align + n_bytes
    · rw [if_pos hc]
      simp [except_isOk_error]
      omega
    · rw [if_neg hc]
      simp [except_isOk_ok]
      omega

/-- C5: after reset the drop-chunk marker is 0, after reset_copy the copy-chunk
marker is 0, and after reset_to_marker(m) the drop-chunk marker is m. -/
theorem reset_marker_values (tds : Nat → TypeDescription) (A : StackAllocator)
    (m : Nat) :
    ((StackAllocator.reset tds A).1).marker = 0 ∧
    (StackAllocator.reset_copy A).marker_copy = 0 ∧
    ((StackAllocator.reset_to_marker tds A m).1).marker = m :=
  ⟨rfl, rfl, rfl⟩

/-- C10: a checked allocation that reports OutOfMemory leaves the allocator
state completely unchanged (both chunks keep their fill and their stored
bytes), and the outcome does not depend on the initializer closure, which is
never invoked on the error path.  Covers alloc and alloc_mut on both chunks. -/
theorem checked_alloc_error_no_effect (tds : Nat → TypeDescription)
    (p n_bytes align : Nat) (op op' : Unit → Nat) (A : StackAllocator) :
    ((alloc_non_copy tds p op A).2.isOk = false →
      (alloc_non_copy tds p op A).1 = A ∧
      alloc_non_copy tds p op' A = alloc_non_copy tds p op A) ∧
    ((alloc_non_copy_mut tds p op A).2.isOk = false →
      (alloc_non_copy_mut tds p op A).1 = A ∧
      alloc_non_copy_mut tds p op' A = alloc_non_copy_mut tds p op A) ∧
    ((alloc_copy n_bytes align op A).2.isOk = false →
      (alloc_copy n_bytes align op A).1 = A ∧
      alloc_copy n_bytes align op' A = alloc_copy n_bytes align op A) ∧
    ((alloc_copy_mut n_bytes align op A).2.isOk = false →
      (alloc_copy_mut n_bytes align op A).1 = A ∧
      alloc_copy_mut n_bytes align op' A = alloc_copy_mut n_bytes align op A) := by
  have hnc : ∀ o o' : Unit → Nat,
      (alloc_non_copy tds p o A).2.isOk = false →
      (alloc_non_copy tds p o A).1 = A ∧
      alloc_non_copy tds p o' A = alloc_non_copy tds p o A := by
    intro o o' hfail
    rw [alloc_non_copy_def tds p o A] at hfail
    rw [alloc_non_copy_def tds p o A, alloc_non_copy_def tds p o' A]
    by_cases hc : A.storage.capacity ≤
        round_up
          (round_up (A.storage.fill + tdPtrSize) (tds p).alignment +
            (tds p).size) tdPtrAlign
    · simp [hc]
    · rw [if_neg hc] at hfail
      exact absurd hfail (by simp [except_isOk_ok])
  have hcp : ∀ o o' : Unit → Nat,
      (alloc_copy n_bytes align o A).2.isOk = false →
      (alloc_copy n_bytes align o A).1 = A ∧
      alloc_copy n_bytes align o' A = alloc_copy n_bytes align o A := by
    intro o o' hfail
    rw [alloc_copy_def n_bytes align o A] at hfail
    rw [alloc_copy_def n_bytes align o A, alloc_copy_def n_bytes align o' A]
    by_cases hc : A.storage_copy.capacity ≤
        round_up A.storage_copy.fill align + n_bytes
    · simp [hc]
    · rw [if_neg hc] at hfail
      exact absurd hfail (by simp [except_isOk_ok])
  refine ⟨hnc op op', ?_, hcp op op', ?_⟩
  · intro hfail
    rw [alloc_non_copy_mut_eq] at hfail
    have h := hnc op op' hfail
    rw [alloc_non_copy_mut_eq, alloc_non_copy_mut_eq]
    exact h
  · intro hfail
    rw [alloc_copy_mut_eq] at hfail
    have h := hcp op op' hfail
    rw [alloc_copy_mut_eq, alloc_copy_mut_eq]
    exact h

/-- C10 witness: on a StackAllocator whose chunks have capacity 1, a droppable
allocation of a type with size 4 and alignment 4 and a copyable allocation of
size 4 and alignment 4 both fail, leave the state unchanged and ignore the
closure. -/
theorem checked_alloc_error_no_effect_witness :
    ((alloc_non_copy (fun _ => ⟨1, 4, 4⟩) 32 (fun _ => 7)
        (StackAllocator.with_capacity 0 0 1 1)).2.isOk = false ∧
      (alloc_copy 4 4 (fun _ => 7)
        (StackAllocator.with_capacity 0 0 1 1)).2.isOk = false) ∧
    ((alloc_non_copy (fun _ => ⟨1, 4, 4⟩) 32 (fun _ => 7)
        (StackAllocator.with_capacity 0 0 1 1)).1 =
        StackAllocator.with_capacity 0 0 1 1 ∧
      alloc_non_copy (fun _ => ⟨1, 4, 4⟩) 32 (fun _ => 9)
          (StackAllocator.with_capacity 0 0 1 1) =
        alloc_non_copy (fun _ => ⟨1, 4, 4⟩) 32 (fun _ => 7)
          (StackAllocator.with_capacity 0 0 1 1)) ∧
    ((alloc_copy 4 4 (fun _ => 7) (StackAllocator.with_capacity 0 0 1 1)).1 =
        StackAllocator.with_capacity 0 0 1 1 ∧
      alloc_copy 4 4 (fun _ => 9) (StackAllocator.with_capacity 0 0 1 1) =
        alloc_copy 4 4 (fun _ => 7) (StackAllocator.with_capacity 0 0 1 1)) := by
  refine ⟨⟨by rfl, by rfl⟩, ?_, ?_⟩
  · exact (checked_alloc_error_no_effect (fun _ => ⟨1, 4, 4⟩) 32 4 4
      (fun _ => 7) (fun _ => 9) (StackAllocator.with_capacity 0 0 1 1)).1
      (by rfl)
  · exact (checked_alloc_error_no_effect (fun _ => ⟨1, 4, 4⟩) 32 4 4
      (fun _ => 7) (fun _ => 9) (StackAllocator.with_capacity 0 0 1 1)).2.2.1
      (by rfl)

/-- C6, counterexample: the code computes aligned offsets from the start of the
buffer, but the buffer address itself is only byte-aligned (it is a RawVec of
u8), so the address of a returned reference need not be a multiple of
align_of(T).  With a copy buffer whose base address is 1, a successful
allocation of a type with size 4 and alignment 4 returns offset 4, address 5,
and 5 mod 4 is not 0. -/
theorem alloc_address_alignment_counterexample :
    (alloc_copy 4 4 (fun _ => 0) (StackAllocator.with_capacity 0 1 200 200)).2 =
      Except.ok 4 ∧
    ((StackAllocator.with_capacity 0 1 200 200).storage_copy.as_ptr + 4) % 4 ≠
      0 := by
  refine ⟨by rfl, by decide⟩

/-- C6 (amended): for a power-of-two alignment, every successful checked
allocation returns an offset that is a multiple of align_of(T); the absolute
address base + offset is a multiple of align_of(T) whenever the chunk's base
address is itself aligned to align_of(T) (which the code does not enforce).
Covers the copy path and the drop path (the mut variants are the same
functions). -/
theorem alloc_offset_aligned (tds : Nat → TypeDescription)
    (p n_bytes align k k' : Nat) (op : Unit → Nat) (A : StackAllocator)
    (ptr ptr' : Nat) (halign : align = 2 ^ k)
    (hdalign : (tds p).alignment = 2 ^ k') :
    ((alloc_copy n_bytes align op A).2 = Except.ok ptr →
      ptr % align = 0 ∧
      (A.storage_copy.base % align = 0 →
        (A.storage_copy.as_ptr + ptr) % align = 0)) ∧
    ((alloc_non_copy tds p op A).2 = Except.ok ptr' →
      ptr' % (tds p).alignment = 0 ∧
      (A.storage.base % (tds p).alignment = 0 →
        (A.storage.as_ptr + ptr') % (tds p).alignment = 0)) := by
  constructor
  · intro hok
    rw [alloc_copy_def, apply_ite Prod.snd] at hok
    subst halign
    have hptr : ptr = round_up A.storage_copy.fill (2 ^ k) := by
      split at hok
      · exact absurd hok (by simp)
      · simpa using hok.symm
    have hmod : ptr % 2 ^ k = 0 := by
      rw [hptr]
      exact round_up_pow_mod _ _
    refine ⟨hmod, fun hbase => ?_⟩
    rw [MemoryChunk.as_ptr, Nat.add_mod, hbase, hmod]
    simp
  · intro hok
    rw [alloc_non_copy_def, apply_ite Prod.snd] at hok
    have hptr : ptr' = round_up (A.storage.fill + tdPtrSize) (tds p).alignment := by
      split at hok
      · exact absurd hok (by simp)
      · simpa using hok.symm
    have hmod : ptr' % (tds p).alignment = 0 := by
      rw [hptr, hdalign]
      exact round_up_pow_mod _ _
    refine ⟨hmod, fun hbase => ?_⟩
    rw [MemoryChunk.as_ptr, Nat.add_mod, hbase, hmod]
    simp

/-- C6 witness: the amended theorem applied to a fresh allocator whose buffers
start at address 0, with a copyable u32-like type and a droppable type of
size 4 and alignment 4. -/
theorem alloc_offset_aligned_witness :
    (4 = 2 ^ 2 ∧
      ((fun (_ : Nat) => (⟨1, 4, 4⟩ : TypeDescription)) 32).alignment = 2 ^ 2 ∧
      (alloc_copy 4 4 (fun _ => 0) (StackAllocator.with_capacity 0 0 200 200)).2 =
        Except.ok 4 ∧
      (alloc_non_copy (fun _ => ⟨1, 4, 4⟩) 32 (fun _ => 0)
          (StackAllocator.with_capacity 0 0 200 200)).2 = Except.ok 12) ∧
    (4 % 4 = 0 ∧
      ((StackAllocator.with_capacity 0 0 200 200).storage_copy.as_ptr + 4) % 4 =
        0 ∧
      12 % ((fun (_ : Nat) => (⟨1, 4, 4⟩ : TypeDescription)) 32).alignment = 0 ∧
      ((StackAllocator.with_capacity 0 0 200 200).storage.as_ptr + 12) %
          ((fun (_ : Nat) => (⟨1, 4, 4⟩ : TypeDescription)) 32).alignment = 0) := by
  refine ⟨⟨by norm_num, by norm_num, by rfl, by rfl⟩, ?_⟩
  have h := alloc_offset_aligned (fun _ => ⟨1, 4, 4⟩) 32 4 4 2 2 (fun _ => 0)
    (StackAllocator.with_capacity 0 0 200 200) 4 12 (by norm_num) (by norm_num)
  have h1 := h.1 (by rfl)
  have h2 := h.2 (by rfl)
  exact ⟨h1.1, h1.2 (by rfl), h2.1, h2.2 (by rfl)⟩

/-- C8: in the DoubleEndedStackAllocator, reset_temp leaves the whole resident
stack (hence marker_resident) unchanged, and reset_resident leaves the whole
temp stack (hence marker_temp) unchanged. -/
theorem double_ended_reset_independence (tds : Nat → TypeDescription)
    (A : DoubleEndedStackAllocator) :
    (A.reset_temp tds).1.stack_resident = A.stack_resident ∧
    (A.reset_temp tds).1.marker_resident = A.marker_resident ∧
    (A.reset_resident tds).1.stack_temp = A.stack_temp ∧
    (A.reset_resident tds).1.marker_temp = A.marker_temp :=
  ⟨rfl, rfl, rfl, rfl⟩

/-- C9: swap_buffers is an involution: two consecutive swaps restore the active
selector and the entire allocator state, and a single swap never touches the
two internal StackAllocators. -/
theorem swap_buffers_involution (A : DoubleBufferedAllocator) :
    A.swap_buffers.swap_buffers = A ∧
    A.swap_buffers.swap_buffers.current = A.current ∧
    A.swap_buffers.buffers = A.buffers := by
  cases A with
  | mk b c => simp [DoubleBufferedAllocator.swap_buffers]

/-! Machinery for the destructor-walk claims: chunk reads and record chains. -/

theorem readWord_writeWord_self (c : MemoryChunk) (off w : Nat) :
    readWord (writeWord c off w) off = w := by
  simp [readWord, writeWord, List.find?]

theorem readWord_writeWord_ne (c : MemoryChunk) {off off' : Nat} (w : Nat)
    (h : off' ≠ off) :
    readWord (writeWord c off w) off' = readWord c off' := by
  have hbeq : (off == off') = false := by
    simp
    omega
  simp [readWord, writeWord, List.find?, hbeq]

theorem readWord_set_fill (c : MemoryChunk) (x off : Nat) :
    readWord (c.set_fill x) off = readWord c off := rfl

/-- Record chain predicate: Chain tds c index evs holds when walking the
record sequence of chunk c from offset index lands exactly on c.fill, every
packed word read on the way encodes a valid type-description pointer, and the
walk performs exactly the drop events evs (in order). -/
inductive Chain (tds : Nat → TypeDescription) (c : MemoryChunk) :
    Nat → List (Nat × Nat) → Prop where
  | nil : Chain tds c c.fill []
  | cons_done (index p : Nat) (evs : List (Nat × Nat))
      (hlt : index < c.fill)
      (hread : readWord c index = bitpack_type_description_ptr p true)
      (heven : p % 2 = 0) (hsize : p < usizeSize)
      (hrest : Chain tds c
        (round_up
          (round_up (index + tdPtrSize) (tds p).alignment + (tds p).size)
          tdPtrAlign) evs) :
      Chain tds c index
        (((tds p).drop_glue,
          round_up (index + tdPtrSize) (tds p).alignment) :: evs)
  | cons_skip (index p : Nat) (evs : List (Nat × Nat))
      (hlt : index < c.fill)
      (hread : readWord c index = bitpack_type_description_ptr p false)
      (heven : p % 2 = 0) (hsize : p < usizeSize)
      (hrest : Chain tds c
        (round_up
          (round_up (index + tdPtrSize) (tds p).alignment + (tds p).size)
          tdPtrAlign) evs) :
      Chain tds c index evs

theorem chain_destroy_loop {tds : Nat → TypeDescription} {c : MemoryChunk}
    {index : Nat} {evs : List (Nat × Nat)} (h : Chain tds c index evs) :
    destroy_loop tds c index = evs := by
  induction h with
  | nil =>
    rw [destroy_loop]
    simp
  | cons_done index p evs hlt hread heven hsize hrest ih =>
    rw [destroy_loop]
    rw [dif_pos hlt, hread, un_bitpack_bitpack p true heven hsize]
    simp [ih]
  | cons_skip index p evs hlt hread heven hsize hrest ih =>
    rw [destroy_loop]
    rw [dif_pos hlt, hread, un_bitpack_bitpack p false heven hsize]
    simp [ih]

theorem chain_lb {tds : Nat → TypeDescription} {c : MemoryChunk} {index : Nat}
    {evs : List (Nat × Nat)} (h : Chain tds c index evs) :
    ∀ e ∈ evs, index < e.2 := by
  induction h with
  | nil =>
    intro e he
    cases he
  | cons_done index p evs hlt hread heven hsize hrest ih =>
    intro e he
    have hts : tdPtrSize = 8 := rfl
    have h1 : index + tdPtrSize ≤
        round_up (index + tdPtrSize) (tds p).alignment := le_round_up _ _
    have h2 : round_up (index + tdPtrSize) (tds p).alignment + (tds p).size <
        round_up
          (round_up (index + tdPtrSize) (tds p).alignment + (tds p).size)
          tdPtrAlign :=
      lt_round_up _ (by norm_num [tdPtrAlign])
    rcases List.mem_cons.mp he with rfl | hmem
    · show index < round_up (index + tdPtrSize) (tds p).alignment
      omega
    · have h3 := ih e hmem
      omega
  | cons_skip index p evs hlt hread heven hsize hrest ih =>
    intro e he
    have hts : tdPtrSize = 8 := rfl
    have h1 : index + tdPtrSize ≤
        round_up (index + tdPtrSize) (tds p).alignment := le_round_up _ _
    have h2 : round_up (index + tdPtrSize) (tds p).alignment + (tds p).size <
        round_up
          (round_up (index + tdPtrSize) (tds p).alignment + (tds p).size)
          tdPtrAlign :=
      lt_round_up _ (by norm_num [tdPtrAlign])
    have h3 := ih e he
    omega

theorem chain_pairwise {tds : Nat → TypeDescription} {c : MemoryChunk}
    {index : Nat} {evs : List (Nat × Nat)} (h : Chain tds c index evs) :
    List.Pairwise (fun e1 e2 : Nat × Nat => e1.2 < e2.2) evs := by
  induction h with
  | nil => exact List.Pairwise.nil
  | cons_done index p evs hlt hread heven hsize hrest ih =>
    refine List.Pairwise.cons ?_ ih
    intro e he
    have hlb := chain_lb hrest e he
    have h2 : round_up (index + tdPtrSize) (tds p).alignment + (tds p).size <
        round_up
          (round_up (index + tdPtrSize) (tds p).alignment + (tds p).size)
          tdPtrAlign :=
      lt_round_up _ (by norm_num [tdPtrAlign])
    show round_up (index + tdPtrSize) (tds p).alignment < e.2
    omega
  | cons_skip index p evs hlt hread heven hsize hrest ih => exact ih

theorem chain_extend_done {tds : Nat → TypeDescription} {c : MemoryChunk}
    {m : Nat} {evs : List (Nat × Nat)} (p v : Nat)
    (heven : p % 2 = 0) (hsize : p < usizeSize)
    (hch : Chain tds c m evs) :
    Chain tds
      (writeWord
        (writeWord
          (writeWord
            (c.set_fill
              (round_up
                (round_up (c.fill + tdPtrSize) (tds p).alignment + (tds p).size)
                tdPtrAlign))
            c.fill (bitpack_type_description_ptr p false))
          (round_up (c.fill + tdPtrSize) (tds p).alignment) v)
        c.fill (bitpack_type_description_ptr p true))
      m
      (evs ++
        [((tds p).drop_glue, round_up (c.fill + tdPtrSize) (tds p).alignment)]) := by
  have hts : tdPtrSize = 8 := rfl
  have hstart : c.fill + tdPtrSize ≤
      round_up (c.fill + tdPtrSize) (tds p).alignment := le_round_up _ _
  have hend : round_up (c.fill + tdPtrSize) (tds p).alignment + (tds p).size <
      round_up
        (round_up (c.fill + tdPtrSize) (tds p).alignment + (tds p).size)
        tdPtrAlign :=
    lt_round_up _ (by norm_num [tdPtrAlign])
  induction hch with
  | nil =>
    show Chain tds _ c.fill _
    rw [List.nil_append]
    refine Chain.cons_done c.fill p [] ?_ ?_ heven hsize ?_
    · show c.fill <
        round_up
          (round_up (c.fill + tdPtrSize) (tds p).alignment + (tds p).size)
          tdPtrAlign
      omega
    · exact readWord_writeWord_self _ _ _
    · exact Chain.nil
  | cons_done index q evs' hlt hread qeven qsize hrest ih =>
    rw [List.cons_append]
    refine Chain.cons_done index q (evs' ++ _) ?_ ?_ qeven qsize ih
    · show index <
        round_up
          (round_up (c.fill + tdPtrSize) (tds p).alignment + (tds p).size)
          tdPtrAlign
      omega
    · rw [readWord_writeWord_ne _ _ (by omega),
        readWord_writeWord_ne _ _ (by omega),
        readWord_writeWord_ne _ _ (by omega), readWord_set_fill]
      exact hread
  | cons_skip index q evs' hlt hread qeven qsize hrest ih =>
    refine Chain.cons_skip index q (evs' ++ _) ?_ ?_ qeven qsize ih
    · show index <
        round_up
          (round_up (c.fill + tdPtrSize) (tds p).alignment + (tds p).size)
          tdPtrAlign
      omega
    · rw [readWord_writeWord_ne _ _ (by omega),
        readWord_writeWord_ne _ _ (by omega),
        readWord_writeWord_ne _ _ (by omega), readWord_set_fill]
      exact hread

theorem chain_extend_skip {tds : Nat → TypeDescription} {c : MemoryChunk}
    {m : Nat} {evs : List (Nat × Nat)} (p : Nat)
    (heven : p % 2 = 0) (hsize : p < usizeSize)
    (hch : Chain tds c m evs) :
    Chain tds
      (writeWord
        (c.set_fill
          (round_up
            (round_up (c.fill + tdPtrSize) (tds p).alignment + (tds p).size)
            tdPtrAlign))
        c.fill (bitpack_type_description_ptr p false))
      m evs := by
  have hts : tdPtrSize = 8 := rfl
  have hstart : c.fill + tdPtrSize ≤
      round_up (c.fill + tdPtrSize) (tds p).alignment := le_round_up _ _
  have hend : round_up (c.fill + tdPtrSize) (tds p).alignment + (tds p).size <
      round_up
        (round_up (c.fill + tdPtrSize) (tds p).alignment + (tds p).size)
        tdPtrAlign :=
    lt_round_up _ (by norm_num [tdPtrAlign])
  induction hch with
  | nil =>
    refine Chain.cons_skip c.fill p [] ?_ ?_ heven hsize ?_
    · show c.fill <
        round_up
          (round_up (c.fill + tdPtrSize) (tds p).alignment + (tds p).size)
          tdPtrAlign
      omega
    · exact readWord_writeWord_self _ _ _
    · exact Chain.nil
  | cons_done index q evs' hlt hread qeven qsize hrest ih =>
    refine Chain.cons_done index q evs' ?_ ?_ qeven qsize ih
    · show index <
        round_up
          (round_up (c.fill + tdPtrSize) (tds p).alignment + (tds p).size)
          tdPtrAlign
      omega
    · rw [readWord_writeWord_ne _ _ (by omega), readWord_set_fill]
      exact hread
  | cons_skip index q evs' hlt hread qeven qsize hrest ih =>
    refine Chain.cons_skip index q evs' ?_ ?_ qeven qsize ih
    · show index <
        round_up
          (round_up (c.fill + tdPtrSize) (tds p).alignment + (tds p).size)
          tdPtrAlign
      omega
    · rw [readWord_writeWord_ne _ _ (by omega), readWord_set_fill]
      exact hread

/-- Sequence of droppable checked allocations: performs alloc_non_copy for each
type-description pointer in the list, accumulating for every successful
allocation the drop event (drop_glue, object offset) that a destructor walk of
the records must later produce, in allocation order. -/
def allocList (tds : Nat → TypeDescription) :
    StackAllocator → List Nat →
      Except AllocationError (StackAllocator × List (Nat × Nat))
  | A, [] => Except.ok (A, [])
  | A, p :: ps =>
    match alloc_non_copy tds p (fun _ => 0) A with
    | (_, Except.error e) => Except.error e
    | (A1, Except.ok ptr) =>
      match allocList tds A1 ps with
      | Except.error e => Except.error e
      | Except.ok (A2, evs) => Except.ok (A2, ((tds p).drop_glue, ptr) :: evs)

theorem allocList_chain {tds : Nat → TypeDescription} {ps : List Nat}
    {A A' : StackAllocator} {evsout : List (Nat × Nat)} {m : Nat}
    {evs : List (Nat × Nat)}
    (hvalid : ∀ p ∈ ps, p % 2 = 0 ∧ p < usizeSize)
    (hch : Chain tds A.storage m evs)
    (h : allocList tds A ps = Except.ok (A', evsout)) :
    Chain tds A'.storage m (evs ++ evsout) := by
  induction ps generalizing A evs evsout with
  | nil =>
    simp only [allocList, Except.ok.injEq] at h
    obtain ⟨rfl, rfl⟩ := h
    simpa using hch
  | cons p ps ih =>
    have hvp := hvalid p (List.mem_cons_self p ps)
    rw [allocList, alloc_non_copy_def] at h
    by_cases hc : A.storage.capacity ≤
        round_up
          (round_up (A.storage.fill + tdPtrSize) (tds p).alignment +
            (tds p).size) tdPtrAlign
    · rw [if_pos hc] at h
      simp at h
    · rw [if_neg hc] at h
      have hext := chain_extend_done p 0 hvp.1 hvp.2 hch
      replace h : (match allocList tds
          { A with storage := (writeWord
            (writeWord
              (writeWord
                (A.storage.set_fill
                  (round_up
                    (round_up (A.storage.fill + tdPtrSize) (tds p).alignment +
                      (tds p).size) tdPtrAlign))
                A.storage.fill (bitpack_type_description_ptr p false))
              (round_up (A.storage.fill + tdPtrSize) (tds p).alignment) 0)
            A.storage.fill (bitpack_type_description_ptr p true)) } ps with
          | Except.error e => Except.error e
          | Except.ok (A2, evs2) =>
            Except.ok (A2, ((tds p).drop_glue,
              round_up (A.storage.fill + tdPtrSize) (tds p).alignment) :: evs2)) =
          Except.ok (A', evsout) := h
      cases hrec : allocList tds
          { A with storage := (writeWord
            (writeWord
              (writeWord
                (A.storage.set_fill
                  (round_up
                    (round_up (A.storage.fill + tdPtrSize) (tds p).alignment +
                      (tds p).size) tdPtrAlign))
                A.storage.fill (bitpack_type_description_ptr p false))
              (round_up (A.storage.fill + tdPtrSize) (tds p).alignment) 0)
            A.storage.fill (bitpack_type_description_ptr p true)) } ps with
      | error e =>
        rw [hrec] at h
        exact absurd (h : Except.error e = Except.ok (A', evsout)) (by simp)
      | ok pr =>
        rw [hrec] at h
        obtain ⟨A2, evstail⟩ := pr
        have h2 : Except.ok (ε := AllocationError) (A2, ((tds p).drop_glue,
            round_up (A.storage.fill + tdPtrSize) (tds p).alignment) ::
              evstail) = Except.ok (A', evsout) := h
        simp only [Except.ok.injEq, Prod.mk.injEq] at h2
        obtain ⟨rfl, rfl⟩ := h2
        have hih := ih (fun q hq => hvalid q (List.mem_cons_of_mem p hq))
          hext hrec
        rw [List.append_assoc] at hih
        simpa using hih

/-- Type-description table used by the concrete C3 scenario: every pointer
value denotes a droppable type of size 4 and alignment 4 whose drop function
has identifier 1. -/
def tdsC3 : Nat → TypeDescription := fun _ => ⟨1, 4, 4⟩

/-- State of the allocator after a droppable allocation whose initializer
panicked, in the concrete C3 scenario (capacity 200/200, descriptor pointer
32). -/
def panickedState : StackAllocator :=
  (alloc_non_copy_panicked tdsC3 32 (StackAllocator.with_capacity 0 0 200 200)).1

/-- C3, counterexample: the claim says that at the moment the initializer
panics (after the initialized=false word was written), fill still equals its
value before the allocation call.  In the code, alloc_non_copy_inner advances
fill before the flag write: starting from fill = 0, at the panic point fill is
already 24, not 0. -/
theorem panicked_fill_not_unchanged_counterexample :
    (alloc_non_copy_panicked tdsC3 32
        (StackAllocator.with_capacity 0 0 200 200)).2 = Except.ok () ∧
    panickedState.storage.fill = 24 ∧
    (StackAllocator.with_capacity 0 0 200 200).storage.fill = 0 ∧
    (24 : Nat) ≠ 0 :=
  ⟨rfl, rfl, rfl, by norm_num⟩

/-- C3 (amended): when the initializer of a droppable checked allocation
aborts after the packed word with initialized=false was written, fill HAS
already been advanced to the record's end offset (the code advances it inside
alloc_non_copy_inner, before the flag write), so the aborted slot is reserved
rather than left for a subsequent allocation to overlap; and a later
destructor walk does not invoke a drop function on that slot: the walk from
the pre-allocation fill produces no drop events, and any destructor walk that
was well-formed before the aborted allocation still produces exactly its old
events afterwards. -/
theorem panicked_alloc_slot_skipped (tds : Nat → TypeDescription) (p : Nat)
    (A A' : StackAllocator) (heven : p % 2 = 0) (hlt : p < usizeSize)
    (hok : alloc_non_copy_panicked tds p A = (A', Except.ok ())) :
    A'.storage.fill =
      round_up
        (round_up (A.storage.fill + tdPtrSize) (tds p).alignment + (tds p).size)
        tdPtrAlign ∧
    destroy_to_marker tds A'.storage A.storage.fill = [] ∧
    (∀ m evs, Chain tds A.storage m evs →
      destroy_to_marker tds A'.storage m = evs) := by
  rw [alloc_non_copy_panicked_def] at hok
  by_cases hc : A.storage.capacity ≤
      round_up
        (round_up (A.storage.fill + tdPtrSize) (tds p).alignment + (tds p).size)
        tdPtrAlign
  · rw [if_pos hc] at hok
    have h2 := congrArg Prod.snd hok
    simp at h2
  · rw [if_neg hc] at hok
    have hA : A' = { A with storage := (writeWord
        (A.storage.set_fill
          (round_up
            (round_up (A.storage.fill + tdPtrSize) (tds p).alignment +
              (tds p).size) tdPtrAlign))
        A.storage.fill (bitpack_type_description_ptr p false)) } :=
      (congrArg Prod.fst hok).symm
    subst hA
    refine ⟨rfl, ?_, ?_⟩
    · have hch : Chain tds A.storage A.storage.fill [] := Chain.nil
      exact chain_destroy_loop (chain_extend_skip p heven hlt hch)
    · intro m evs hch
      exact chain_destroy_loop (chain_extend_skip p heven hlt hch)

/-- C3 witness: the amended theorem applied to the concrete scenario (fresh
200/200 allocator, size-4 alignment-4 droppable type at descriptor pointer
32): the panic point has fill advanced to 24 and the destructor walk from the
prior fill (0) performs no drop. -/
theorem panicked_alloc_slot_skipped_witness :
    (32 % 2 = 0 ∧ 32 < usizeSize ∧
      alloc_non_copy_panicked tdsC3 32 (StackAllocator.with_capacity 0 0 200 200) =
        (panickedState, Except.ok ())) ∧
    (panickedState.storage.fill = 24 ∧
      destroy_to_marker tdsC3 panickedState.storage 0 = []) := by
  have h := panicked_alloc_slot_skipped tdsC3 32
    (StackAllocator.with_capacity 0 0 200 200) panickedState (by norm_num)
    (by norm_num [usizeSize]) (by rfl)
  exact ⟨⟨by norm_num, by norm_num [usizeSize], by rfl⟩, h.1.trans (by rfl), h.2.1⟩

/-- C4: destructors of the reclaimed records run in ascending order of start
offsets, which is allocation (insertion) order.  For any sequence of
successful droppable allocations ps1 then ps2 on a fresh allocator:
reset() performs exactly the drop events of ps1 ++ ps2 in allocation order,
reset_to_marker(m) with m the marker taken between the two phases performs
exactly the events of ps2 in allocation order, and the object start offsets of
the events are strictly increasing. -/
theorem reset_destructor_order (tds : Nat → TypeDescription)
    (b bc caps capsc : Nat) (ps1 ps2 : List Nat) (A1 A2 : StackAllocator)
    (evs1 evs2 : List (Nat × Nat))
    (hvalid : ∀ p ∈ ps1 ++ ps2, p % 2 = 0 ∧ p < usizeSize)
    (h1 : allocList tds (StackAllocator.with_capacity b bc caps capsc) ps1 =
      Except.ok (A1, evs1))
    (h2 : allocList tds A1 ps2 = Except.ok (A2, evs2)) :
    (StackAllocator.reset tds A2).2 = evs1 ++ evs2 ∧
    (StackAllocator.reset_to_marker tds A2 A1.marker).2 = evs2 ∧
    List.Pairwise (fun e1 e2 : Nat × Nat => e1.2 < e2.2) (evs1 ++ evs2) := by
  have hvalid1 : ∀ p ∈ ps1, p % 2 = 0 ∧ p < usizeSize :=
    fun p hp => hvalid p (List.mem_append_left _ hp)
  have hvalid2 : ∀ p ∈ ps2, p % 2 = 0 ∧ p < usizeSize :=
    fun p hp => hvalid p (List.mem_append_right _ hp)
  have hch0 : Chain tds
      (StackAllocator.with_capacity b bc caps capsc).storage 0 [] := Chain.nil
  have hc1 : Chain tds A1.storage 0 ([] ++ evs1) :=
    allocList_chain hvalid1 hch0 h1
  have hm : Chain tds A1.storage A1.marker [] := Chain.nil
  have hc2full : Chain tds A2.storage 0 (([] ++ evs1) ++ evs2) :=
    allocList_chain hvalid2 hc1 h2
  have hc2part : Chain tds A2.storage A1.marker ([] ++ evs2) :=
    allocList_chain hvalid2 hm h2
  rw [List.nil_append] at hc2full hc2part
  refine ⟨?_, ?_, ?_⟩
  · exact chain_destroy_loop hc2full
  · exact chain_destroy_loop hc2part
  · exact chain_pairwise hc2full

/-- Type-description table used by the concrete C4 scenario: descriptor 32 is
a droppable type of size 4, alignment 4 and drop function 1, every other
descriptor a droppable type of size 8, alignment 8 and drop function 2. -/
def tdsW : Nat → TypeDescription :=
  fun p => if p == 32 then ⟨1, 4, 4⟩ else ⟨2, 8, 8⟩

/-- Allocator state after the first droppable allocation of the C4 scenario. -/
def stateAfterOne : StackAllocator :=
  match allocList tdsW (StackAllocator.with_capacity 0 0 200 200) [32] with
  | Except.ok (A, _) => A
  | Except.error _ => StackAllocator.with_capacity 0 0 200 200

/-- Allocator state after both droppable allocations of the C4 scenario. -/
def stateAfterTwo : StackAllocator :=
  match allocList tdsW stateAfterOne [48] with
  | Except.ok (A, _) => A
  | Except.error _ => stateAfterOne

/-- C4 witness: the order theorem applied to a concrete run mirroring
scenario A: capacity 200/200, allocate droppable object 1 then droppable
object 2; the full reset drops (1 at offset 12) then (2 at offset 40), the
partial reset to the intermediate marker drops only object 2, and the offsets
ascend. -/
theorem reset_destructor_order_witness :
    ((∀ p ∈ [32] ++ [48], p % 2 = 0 ∧ p < usizeSize) ∧
      allocList tdsW (StackAllocator.with_capacity 0 0 200 200) [32] =
        Except.ok (stateAfterOne, [(1, 12)]) ∧
      allocList tdsW stateAfterOne [48] = Except.ok (stateAfterTwo, [(2, 40)])) ∧
    ((StackAllocator.reset tdsW stateAfterTwo).2 = [(1, 12)] ++ [(2, 40)] ∧
      (StackAllocator.reset_to_marker tdsW stateAfterTwo
        stateAfterOne.marker).2 = [(2, 40)] ∧
      List.Pairwise (fun e1 e2 : Nat × Nat => e1.2 < e2.2)
        ([(1, 12)] ++ [(2, 40)])) := by
  refine ⟨⟨by decide, by rfl, by rfl⟩, ?_⟩
  exact reset_destructor_order tdsW 0 0 200 200 [32] [48] stateAfterOne
    stateAfterTwo [(1, 12)] [(2, 40)] (by decide) (by rfl) (by rfl)

end Maskerad
